import Mathlib

/-!
Shallow embedding of the restatedev/pubsub repository: a durable,
offset-indexed topic log. The actor keeps per-topic metadata (head/tail
counters), message slots keyed by offset, and a list of pending long-poll
waiters (subscriptions). The embedding below translates the actor handlers
(pull, publish, subscribe) and the consumer-side long-poll client
(pullMessages, sse, durationToMs) into pure Lean functions; effects such as
resolving or rejecting awakeables become explicit result values, and the
suspending branch of pull becomes an explicit outcome constructor.
-/

namespace Pubsub

variable {Msg Id : Type}

/-- Metadata record stored under the messagesMetadata state key: head is the
smallest valid offset, tail is one past the last appended message. -/
structure Metadata where
  head : Nat
  tail : Nat
  deriving Repr, DecidableEq

/-- Pending waiter registered by the subscribe handler: the requested read
position and the opaque awakeable token. -/
structure Subscription (Id : Type) where
  offset : Nat
  id : Id
  deriving Repr, DecidableEq

/-- Payload delivered to a waiter when it is resolved. -/
structure Notification (Msg : Type) where
  newOffset : Nat
  newMessages : List Msg
  deriving Repr, DecidableEq

/-- Durable state of one topic: the metadata record (absent until first
written), the message slots keyed m_i by offset, and the pending waiter
list (absent when cleared). -/
structure PubSubState (Msg Id : Type) where
  messagesMetadata : Option Metadata
  store : Nat → Option Msg
  subscription : Option (List (Subscription Id))

/-- Metadata used when the state key is missing (defaultMetadata in the
source). -/
def defaultMetadata : Metadata :=
  { head := 0, tail := 0 }

/-- State of a topic never touched before: no metadata, no slots, no
waiters. -/
def initialState (Msg Id : Type) : PubSubState Msg Id :=
  { messagesMetadata := none, store := fun _ => none, subscription := none }

/-- Metadata as observed by every handler: the stored record, or the default
when missing. -/
def effMeta (s : PubSubState Msg Id) : Metadata :=
  s.messagesMetadata.getD defaultMetadata

/-- Effective head counter of a topic state. -/
def effHead (s : PubSubState Msg Id) : Nat :=
  (effMeta s).head

/-- Effective tail counter of a topic state. -/
def effTail (s : PubSubState Msg Id) : Nat :=
  (effMeta s).tail

/-- Pending waiter list as observed by the handlers: the stored list, or
empty when the key is absent. -/
def effSubs (s : PubSubState Msg Id) : List (Subscription Id) :=
  s.subscription.getD []

/-- Read of the slot for one offset, raising the terminal error of the
source when the value is undefined. -/
def readSlot (store : Nat → Option Msg) (i : Nat) : Except String Msg :=
  match store i with
  | none => Except.error "Value is unexpected to be undefined"
  | some v => Except.ok v

/-- Translation of loadMessagesInRange: reads the slots from fromIncluded
(inclusive) to toExcluded (exclusive) in order; a missing slot raises the
terminal error of the source. The early return for an empty range is kept. -/
def loadMessagesInRange (store : Nat → Option Msg) (fromIncluded toExcluded : Nat) :
    Except String (List Msg) :=
  if fromIncluded = toExcluded then
    Except.ok []
  else
    (List.range' fromIncluded (toExcluded - fromIncluded)).mapM (readSlot store)

/-- Outcome of the pull handler: a terminal error, an immediate response, or
the suspending branch that registers a waiter at the given offset via a
self-directed subscribe call and awaits its resolution. -/
inductive PullOutcome (Msg : Type) where
  | terminal (message : String)
  | response (messages : List Msg) (nextOffset : Nat)
  | awaitSubscribe (offset : Nat)
  deriving Repr, DecidableEq

/-- Error message raised when a requested offset is below the head. -/
def offsetBelowHeadMsg (offset head : Nat) : String :=
  "Offset " ++ toString offset ++ " is lower than the head " ++ toString head

/-- Translation of the pull handler: below head fails terminally, below tail
returns the stored range immediately, otherwise the call suspends after
registering a waiter. -/
def pull (s : PubSubState Msg Id) (offset : Nat) : PullOutcome Msg :=
  if offset < effHead s then
    PullOutcome.terminal (offsetBelowHeadMsg offset (effHead s))
  else if offset < effTail s then
    match loadMessagesInRange s.store offset (effTail s) with
    | Except.ok messages => PullOutcome.response messages (effTail s)
    | Except.error e => PullOutcome.terminal e
  else
    PullOutcome.awaitSubscribe offset

/-- Store after publish writes the new message at slot m_tail. -/
def publishStore (s : PubSubState Msg Id) (message : Msg) : Nat → Option Msg :=
  fun i => if i = effTail s then some message else s.store i

/-- Result of the publish handler: the successor state plus the list of
awakeable resolutions issued, in waiter order. -/
structure PublishResult (Msg Id : Type) where
  state : PubSubState Msg Id
  resolved : List (Id × Notification Msg)

/-- Notification computed for one pending waiter during publish. -/
def publishNotify (store : Nat → Option Msg) (newTail : Nat) (w : Subscription Id) :
    Except String (Id × Notification Msg) := do
  let msgs ← loadMessagesInRange store w.offset newTail
  pure (w.id, { newOffset := newTail, newMessages := msgs })

/-- Durable state left by publish: the metadata with the tail bumped by one
and the head untouched, the new message written at slot tail, and the
waiter list cleared. -/
def publishState (s : PubSubState Msg Id) (message : Msg) : PubSubState Msg Id :=
  { messagesMetadata := some { head := effHead s, tail := effTail s + 1 },
    store := publishStore s message,
    subscription := none }

/-- Translation of the publish handler: write the message at slot tail,
bump tail, resolve every pending waiter with the range from its offset to
the new tail, and clear the waiter list. -/
def publish (s : PubSubState Msg Id) (message : Msg) :
    Except String (PublishResult Msg Id) := do
  let resolved ← (effSubs s).mapM (publishNotify (publishStore s message) (effTail s + 1))
  pure { state := publishState s message, resolved := resolved }

/-- Effect of the subscribe handler on the awakeable it was handed. -/
inductive SubscribeEffect (Msg Id : Type) where
  | rejected (id : Id) (reason : String)
  | resolved (id : Id) (n : Notification Msg)
  | registered
  deriving Repr, DecidableEq

/-- State after a waiter is pushed onto the pending list; every other field
is unchanged. -/
def registerWaiter (s : PubSubState Msg Id) (sub : Subscription Id) : PubSubState Msg Id :=
  { s with subscription := some (effSubs s ++ [sub]) }

/-- Translation of the subscribe handler: below head the token is rejected,
below tail it is resolved immediately with the stored range, otherwise the
waiter is appended to the pending list. -/
def subscribe (s : PubSubState Msg Id) (sub : Subscription Id) :
    Except String (PubSubState Msg Id × SubscribeEffect Msg Id) :=
  if sub.offset < effHead s then
    Except.ok (s, SubscribeEffect.rejected sub.id (offsetBelowHeadMsg sub.offset (effHead s)))
  else if sub.offset < effTail s then
    match loadMessagesInRange s.store sub.offset (effTail s) with
    | Except.error e => Except.error e
    | Except.ok msgs =>
        Except.ok (s, SubscribeEffect.resolved sub.id
          { newOffset := effTail s, newMessages := msgs })
  else
    Except.ok (registerWaiter s sub, SubscribeEffect.registered)

/-- Modelled from the spec: the actor-side truncate handler is not among the
sources (only the client caller, its type declaration and the integration
tests are). Spec section 4.4: newHead = min(head + count, tail); every
pending waiter with offset below newHead is rejected with the
offset-below-head failure and removed; the remaining waiters are kept; head
is set to newHead; message slots are not required to be purged. -/
def truncHead (s : PubSubState Msg Id) (count : Nat) : Nat :=
  min (effHead s + count) (effTail s)

/-- Modelled from the spec (continued): the successor state and the list of
rejections issued by truncate, following the section 4.4 steps. -/
def truncate (s : PubSubState Msg Id) (count : Nat) :
    PubSubState Msg Id × List (Id × String) :=
  ({ messagesMetadata := some { head := truncHead s count, tail := effTail s },
     store := s.store,
     subscription := some ((effSubs s).filter fun w => ¬ w.offset < truncHead s count) },
   ((effSubs s).filter fun w => w.offset < truncHead s count).map fun w =>
     (w.id, offsetBelowHeadMsg w.offset (truncHead s count)))

/-- Modelled from the spec: the request schema that decides what an unset
pull offset means lives in the pubsub-types package, which is not among the
sources. Spec section 4.1 reads: offset unset means start from current
tail. The offset carried by a pull request is therefore resolved to the
current tail when it is absent. -/
def resolveOffset (s : PubSubState Msg Id) (reqOffset : Option Nat) : Nat :=
  reqOffset.getD (effTail s)

/-- Pull handler applied to a request whose offset field may be unset,
resolving the unset case per the spec. -/
def pullRequest (s : PubSubState Msg Id) (reqOffset : Option Nat) : PullOutcome Msg :=
  pull s (resolveOffset s reqOffset)

/-- Operations of the topic actor, used to state invariants over arbitrary
operation sequences. Awakeable ids are numbered. -/
inductive Op (Msg : Type) where
  | publish (m : Msg)
  | subscribe (offset : Nat) (id : Nat)
  | truncate (count : Nat)
  | pull (offset : Nat)

/-- One actor operation applied to the topic state. The pull handler is
read-only; a handler that raises a terminal error leaves the durable state
as committed so far, which for this embedding is the prior state. -/
def step (s : PubSubState Msg Nat) (op : Op Msg) : PubSubState Msg Nat :=
  match op with
  | Op.publish m =>
      match publish s m with
      | Except.ok r => r.state
      | Except.error _ => s
  | Op.subscribe offset id =>
      match subscribe s { offset := offset, id := id } with
      | Except.ok (s2, _) => s2
      | Except.error _ => s
  | Op.truncate count => (truncate s count).1
  | Op.pull _ => s

/-- Topic state reached by running a sequence of operations from the
initial state. -/
def run (ops : List (Op Msg)) : PubSubState Msg Nat :=
  ops.foldl step (initialState Msg Nat)

/-- Number of publish operations in a sequence. -/
def countPublish : List (Op Msg) → Nat
  | [] => 0
  | Op.publish _ :: ops => countPublish ops + 1
  | _ :: ops => countPublish ops

/-- Well-formedness invariant of a topic state: the head never exceeds the
tail, and every slot below the tail is populated. -/
def topicInv (s : PubSubState Msg Id) : Prop :=
  effHead s ≤ effTail s ∧ ∀ i, i < effTail s → (s.store i).isSome

/-- Result of one transport-level pull call as seen by the client loop:
either a successful response, or an error carrying whether it is an
HttpCallError and its status code. -/
inductive PullCallResult (Msg : Type) where
  | ok (messages : List Msg) (nextOffset : Nat)
  | err (isHttpCallError : Bool) (status : Nat)
  deriving Repr, DecidableEq

/-- Observable events of the client loop: a pull call with the running
offset it sends, a yielded message, and a sleep of some milliseconds. -/
inductive LoopEvent (Msg : Type) where
  | pullCall (offset : Option Nat)
  | yieldMsg (m : Msg)
  | sleep (ms : Nat)
  deriving Repr, DecidableEq

/-- How a run of the client loop ended: the abort signal was observed, an
error was rethrown out of the generator, or the supplied schedule of pull
results ran out while the loop was still going. -/
inductive LoopEnd where
  | aborted
  | raised (isHttpCallError : Bool) (status : Nat)
  | ranOut
  deriving Repr, DecidableEq

/-- Translation of the pullMessages client loop. Each list entry supplies
one iteration: the abort flag observed at the top of the loop and the result
of the pull call. On success the messages are yielded in order and only then
the running offset becomes the returned nextOffset; the body then sleeps
once. On an HttpCallError with status 408 the loop sleeps in the catch
branch and again at the bottom of the body and retries with the same
offset; any other error is rethrown and ends the loop. -/
def pullLoop (delay : Nat) :
    Option Nat → List (Bool × PullCallResult Msg) → List (LoopEvent Msg) × LoopEnd
  | _, [] => ([], LoopEnd.ranOut)
  | _, (true, _) :: _ => ([], LoopEnd.aborted)
  | offset, (false, PullCallResult.ok msgs next) :: rest =>
      (LoopEvent.pullCall offset :: (msgs.map LoopEvent.yieldMsg ++
        (LoopEvent.sleep delay :: (pullLoop delay (some next) rest).1)),
       (pullLoop delay (some next) rest).2)
  | offset, (false, PullCallResult.err isHttp status) :: rest =>
      if isHttp = true ∧ status = 408 then
        (LoopEvent.pullCall offset :: LoopEvent.sleep delay ::
          LoopEvent.sleep delay :: (pullLoop delay offset rest).1,
         (pullLoop delay offset rest).2)
      else
        ([LoopEvent.pullCall offset], LoopEnd.raised isHttp status)

/-- Messages yielded along a client-loop trace, in order. -/
def yieldsOf (evs : List (LoopEvent Msg)) : List Msg :=
  evs.filterMap fun e => match e with
    | LoopEvent.yieldMsg m => some m
    | _ => none

/-- Offsets sent by the pull calls along a client-loop trace, in order. -/
def pullOffsets (evs : List (LoopEvent Msg)) : List (Option Nat) :=
  evs.filterMap fun e => match e with
    | LoopEvent.pullCall o => some o
    | _ => none

/-- Terminal state of the SSE stream: closed normally, or errored with the
failure rethrown by the loop. -/
inductive StreamEnd where
  | closed
  | errored (isHttpCallError : Bool) (status : Nat)
  deriving Repr, DecidableEq

/-- Translation of the sse wrapper applied to a finished client-loop run:
one keep-alive chunk is enqueued first, then one framed data chunk per
yielded message in order; the stream closes when the loop ends and turns a
rethrown loop failure into a stream error. The JSON encoding of a message
is abstract. -/
def sse (json : Msg → String) (loopOut : List (LoopEvent Msg) × LoopEnd) :
    List String × StreamEnd :=
  ("event: ping\n" :: (yieldsOf loopOut.1).map (fun m => "data: " ++ json m ++ "\n\n"),
   match loopOut.2 with
   | LoopEnd.raised isHttp status => StreamEnd.errored isHttp status
   | _ => StreamEnd.closed)

/-- Duration record of the client options; every unit field is optional. -/
structure Duration where
  milliseconds : Option Nat
  seconds : Option Nat
  minutes : Option Nat
  hours : Option Nat
  days : Option Nat
  deriving Repr, DecidableEq

/-- Translation of durationToMs: the first defined unit field in the fixed
order milliseconds, seconds, minutes, hours, days is converted to
milliseconds; a duration with no defined unit raises an error. -/
def durationToMs (duration : Duration) : Except String Nat :=
  match duration.milliseconds with
  | some ms => Except.ok ms
  | none =>
    match duration.seconds with
    | some s => Except.ok (s * 1000)
    | none =>
      match duration.minutes with
      | some m => Except.ok (m * 60 * 1000)
      | none =>
        match duration.hours with
        | some h => Except.ok (h * 60 * 60 * 1000)
        | none =>
          match duration.days with
          | some d => Except.ok (d * 24 * 60 * 60 * 1000)
          | none => Except.error "Unsupported duration unit"

/-! Helper lemmas about slot reads and ranges. -/

theorem readSlot_ok (store : Nat → Option Msg) (f : Nat → Msg) (i : Nat)
    (h : store i = some (f i)) : readSlot store i = Except.ok (f i) := by
  simp [readSlot, h]

theorem mapM_readSlot_eq (store : Nat → Option Msg) (f : Nat → Msg) :
    ∀ l : List Nat, (∀ i ∈ l, store i = some (f i)) →
      l.mapM (readSlot store) = Except.ok (l.map f)
  | [], _ => rfl
  | a :: l, h => by
    have ha : readSlot store a = Except.ok (f a) :=
      readSlot_ok store f a (h a (by simp))
    have ih := mapM_readSlot_eq store f l (fun i hi => h i (by simp [hi]))
    rw [List.mapM_cons, ha, ih]
    rfl

theorem loadMessagesInRange_eq_map (store : Nat → Option Msg) (f : Nat → Msg)
    (lo hi : Nat) (h : ∀ i, lo ≤ i → i < hi → store i = some (f i)) :
    loadMessagesInRange store lo hi = Except.ok ((List.range' lo (hi - lo)).map f) := by
  unfold loadMessagesInRange
  by_cases hc : lo = hi
  · subst hc
    simp
  · rw [if_neg hc]
    apply mapM_readSlot_eq
    intro i hi2
    rw [List.mem_range'_1] at hi2
    exact h i hi2.1 (by omega)

theorem loadMessagesInRange_of_ge (store : Nat → Option Msg) (lo hi : Nat)
    (h : hi ≤ lo) : loadMessagesInRange store lo hi = Except.ok [] := by
  unfold loadMessagesInRange
  by_cases hc : lo = hi
  · rw [if_pos hc]
  · rw [if_neg hc]
    have h0 : hi - lo = 0 := by omega
    rw [h0]
    rfl

theorem mapM_readSlot_isOk (store : Nat → Option Msg) :
    ∀ l : List Nat, (∀ i ∈ l, (store i).isSome) →
      ∃ out, l.mapM (readSlot store) = Except.ok out
  | [], _ => ⟨[], rfl⟩
  | a :: l, h => by
    obtain ⟨va, hva⟩ := Option.isSome_iff_exists.mp (h a (by simp))
    obtain ⟨out, hout⟩ := mapM_readSlot_isOk store l (fun i hi => h i (by simp [hi]))
    exact ⟨va :: out, by rw [List.mapM_cons, readSlot_ok store (fun _ => va) a hva, hout]; rfl⟩

theorem loadMessagesInRange_isOk (store : Nat → Option Msg) (lo hi : Nat)
    (h : ∀ i, i < hi → (store i).isSome) :
    ∃ out, loadMessagesInRange store lo hi = Except.ok out := by
  unfold loadMessagesInRange
  by_cases hc : lo = hi
  · exact ⟨[], by rw [if_pos hc]⟩
  · rw [if_neg hc]
    apply mapM_readSlot_isOk
    intro i hi2
    rw [List.mem_range'_1] at hi2
    exact h i (by omega)

theorem pull_terminal_of_lt_head (s : PubSubState Msg Id) (offset : Nat)
    (h : offset < effHead s) :
    pull s offset = PullOutcome.terminal (offsetBelowHeadMsg offset (effHead s)) := by
  unfold pull
  rw [if_pos h]

theorem pull_response_of_stored (s : PubSubState Msg Id) (offset : Nat) (f : Nat → Msg)
    (hlo : effHead s ≤ offset) (hhi : offset < effTail s)
    (hf : ∀ i, offset ≤ i → i < effTail s → s.store i = some (f i)) :
    pull s offset =
      PullOutcome.response ((List.range' offset (effTail s - offset)).map f) (effTail s) := by
  unfold pull
  rw [if_neg (by omega), if_pos hhi, loadMessagesInRange_eq_map s.store f offset (effTail s) hf]

/-! Claim theorems. -/

/-- C1: for every topic state with head ≤ offset < tail whose slots in
[offset, tail) hold the stored messages given by f, pull returns the
immediate response outcome (no waiter is registered, no suspension) with
exactly the stored messages at offsets offset, offset+1, ..., tail-1 in
that order and nextOffset equal to tail. -/
theorem pull_in_range_returns_stored (s : PubSubState Msg Id) (offset : Nat) (f : Nat → Msg)
    (hlo : effHead s ≤ offset) (hhi : offset < effTail s)
    (hf : ∀ i, offset ≤ i → i < effTail s → s.store i = some (f i)) :
    pull s offset =
      PullOutcome.response ((List.range' offset (effTail s - offset)).map f) (effTail s) :=
  pull_response_of_stored s offset f hlo hhi hf

/-- Concrete topic for the C1 witness: head 0, tail 2, slot i holds
10 + i. -/
def stateStored : PubSubState Nat Nat :=
  { messagesMetadata := some { head := 0, tail := 2 },
    store := fun i => some (10 + i),
    subscription := none }

/-- Witness for C1 at a concrete state: head 0, tail 2, slots 0 and 1 hold
10 and 11; pull at offset 1 answers immediately with message 11 and
nextOffset 2. -/
theorem pull_in_range_returns_stored_witness :
    pull stateStored 1 = PullOutcome.response [11] 2 := by
  have h := pull_in_range_returns_stored stateStored 1 (fun i => 10 + i)
    (by decide) (by decide) (fun i _ _ => rfl)
  simpa using h

/-- C2: for every offset strictly below the effective head, pull fails with
the terminal offset-below-head error naming the requested offset and the
current head; the outcome is a pure function of the observed state, and the
second conjunct shows it does not depend on anything but the head counter,
so the failure is deterministic for every such call. -/
theorem pull_below_head_fails (s : PubSubState Msg Id) (offset : Nat)
    (h : offset < effHead s) :
    pull s offset = PullOutcome.terminal (offsetBelowHeadMsg offset (effHead s))
  ∧ ∀ s2 : PubSubState Msg Id, effHead s2 = effHead s → pull s2 offset = pull s offset := by
  refine ⟨pull_terminal_of_lt_head s offset h, fun s2 h2 => ?_⟩
  rw [pull_terminal_of_lt_head s offset h, pull_terminal_of_lt_head s2 offset (by omega), h2]

/-- Concrete topic for the C2 witness: head 2, tail 3, no slots
populated. -/
def stateHeadTwo : PubSubState Nat Nat :=
  { messagesMetadata := some { head := 2, tail := 3 },
    store := fun _ => none,
    subscription := none }

/-- Witness for C2 at a concrete state with head 2: pull at offset 0 fails
with the error naming offset 0 and head 2, matching the message asserted by
the integration tests. -/
theorem pull_below_head_fails_witness :
    pull stateHeadTwo 0 = PullOutcome.terminal "Offset 0 is lower than the head 2" := by
  have h := pull_below_head_fails stateHeadTwo 0 (by decide)
  simpa [offsetBelowHeadMsg] using h.1

theorem mapM_except_ok_elementwise {α β : Type} (g : α → Except String β) :
    ∀ (l : List α) (out : List β), l.mapM g = Except.ok out →
      out.length = l.length ∧
      ∀ i (h1 : i < l.length) (h2 : i < out.length),
        g (l.get ⟨i, h1⟩) = Except.ok (out.get ⟨i, h2⟩)
  | [], out, h => by
    have hout : out = [] := by
      have h0 : (Except.ok [] : Except String (List β)) = Except.ok out := h
      exact (Except.ok.inj h0).symm
    subst hout
    exact ⟨rfl, fun i h1 _ => absurd h1 (by simp)⟩
  | a :: l, out, h => by
    rw [List.mapM_cons] at h
    cases hga : g a with
    | error e => rw [hga] at h; exact absurd h (by simp [Bind.bind, Except.bind])
    | ok b =>
      rw [hga] at h
      cases hgl : l.mapM g with
      | error e =>
        rw [hgl] at h
        exact absurd h (by simp [Bind.bind, Except.bind, Pure.pure])
      | ok bs =>
        rw [hgl] at h
        have hbs : out = b :: bs := by
          have h0 : (Except.ok (b :: bs) : Except String (List β)) = Except.ok out := h
          exact (Except.ok.inj h0).symm
        subst hbs
        obtain ⟨hlen, helem⟩ := mapM_except_ok_elementwise g l bs hgl
        refine ⟨by simp [hlen], fun i h1 h2 => ?_⟩
        cases i with
        | zero => simpa using hga
        | succ j =>
          have hj1 : j < l.length := by simpa using h1
          have hj2 : j < bs.length := by simpa using h2
          simpa using helem j hj1 hj2

theorem publishNotify_ok (store : Nat → Option Msg) (nt : Nat) (w : Subscription Id)
    (p : Id × Notification Msg) (h : publishNotify store nt w = Except.ok p) :
    loadMessagesInRange store w.offset nt = Except.ok p.2.newMessages
  ∧ p.1 = w.id ∧ p.2.newOffset = nt := by
  unfold publishNotify at h
  cases hl : loadMessagesInRange store w.offset nt with
  | error e =>
    rw [hl] at h
    exact absurd h (by simp [Bind.bind, Except.bind])
  | ok msgs =>
    rw [hl] at h
    have h0 : (Except.ok (w.id, { newOffset := nt, newMessages := msgs }) :
        Except String (Id × Notification Msg)) = Except.ok p := h
    have hp := Except.ok.inj h0
    rw [← hp]
    exact ⟨rfl, rfl, rfl⟩

theorem publish_ok_parts (s : PubSubState Msg Id) (m : Msg) (r : PublishResult Msg Id)
    (h : publish s m = Except.ok r) :
    (effSubs s).mapM (publishNotify (publishStore s m) (effTail s + 1)) =
      Except.ok r.resolved
  ∧ r.state.messagesMetadata = some { head := effHead s, tail := effTail s + 1 }
  ∧ r.state.store = publishStore s m
  ∧ r.state.subscription = none := by
  unfold publish at h
  cases hm : (effSubs s).mapM (publishNotify (publishStore s m) (effTail s + 1)) with
  | error e =>
    rw [hm] at h
    exact absurd h (by simp [Bind.bind, Except.bind])
  | ok resolved =>
    rw [hm] at h
    obtain rfl := Except.ok.inj h
    exact ⟨rfl, rfl, rfl, rfl⟩

/-- Concrete topic state for the C3 counterexample: no metadata yet
(head 0, tail 0) and one pending waiter at offset 5 with token 0. -/
def stateC3 : PubSubState Nat Nat :=
  { messagesMetadata := none,
    store := fun _ => none,
    subscription := some [{ offset := 5, id := 0 }] }

/-- C3 counterexample: publishing one message makes the new tail 1, and the
pending waiter at offset 5 satisfies 5 ≥ 1, so by the claim it should stay
registered, unchanged and unresolved. Instead publish clears the whole
waiter list (the subscription key becomes absent) and resolves that waiter
with an empty message list and nextOffset 1. -/
theorem publish_keeps_high_waiters_counterexample :
    (publish stateC3 7).map
        (fun r => (r.state.subscription, r.resolved)) =
      Except.ok (none, [(0, { newOffset := 1, newMessages := [] })]) := rfl

/-- C3 amended: publish resolves and removes every pending waiter, whatever
its offset: the waiter list is cleared, and the i-th waiter is resolved
with nextOffset = new tail and exactly the messages the store holds in
[waiter.offset, new-tail) — an empty list whenever waiter.offset ≥ new
tail. Only the claim that waiters at or above the new tail stay registered
is dropped; the description of the resolutions below the new tail is kept. -/
theorem publish_resolves_every_waiter (s : PubSubState Msg Id) (m : Msg)
    (r : PublishResult Msg Id) (h : publish s m = Except.ok r) :
    r.state.subscription = none
  ∧ r.resolved.length = (effSubs s).length
  ∧ ∀ i (h1 : i < (effSubs s).length) (h2 : i < r.resolved.length),
      (r.resolved.get ⟨i, h2⟩).1 = ((effSubs s).get ⟨i, h1⟩).id
    ∧ (r.resolved.get ⟨i, h2⟩).2.newOffset = effTail s + 1
    ∧ loadMessagesInRange (publishStore s m) ((effSubs s).get ⟨i, h1⟩).offset (effTail s + 1)
        = Except.ok ((r.resolved.get ⟨i, h2⟩).2.newMessages)
    ∧ (effTail s + 1 ≤ ((effSubs s).get ⟨i, h1⟩).offset →
        (r.resolved.get ⟨i, h2⟩).2.newMessages = []) := by
  obtain ⟨hm, _, _, hsub⟩ := publish_ok_parts s m r h
  obtain ⟨hlen, helem⟩ := mapM_except_ok_elementwise _ _ _ hm
  refine ⟨hsub, hlen, fun i h1 h2 => ?_⟩
  obtain ⟨hload, hid, hoff⟩ := publishNotify_ok _ _ _ _ (helem i h1 h2)
  refine ⟨hid, hoff, hload, fun hge => ?_⟩
  rw [loadMessagesInRange_of_ge _ _ _ hge] at hload
  exact (Except.ok.inj hload).symm

/-- Concrete topic state with two pending waiters, one below and one above
the tail that a publish will produce. -/
def stateTwoWaiters : PubSubState Nat Nat :=
  { messagesMetadata := none,
    store := fun _ => none,
    subscription := some [{ offset := 0, id := 10 }, { offset := 5, id := 11 }] }

/-- Witness for the amended C3 at a concrete state holding two waiters:
publish succeeds, the waiter list is cleared, and both waiters appear in
the resolution list. -/
theorem publish_resolves_every_waiter_witness :
    ∃ r, publish stateTwoWaiters 7 = Except.ok r
      ∧ r.state.subscription = none
      ∧ r.resolved.length = 2 := by
  obtain ⟨r, hr⟩ : ∃ r, publish stateTwoWaiters 7 = Except.ok r := ⟨_, rfl⟩
  have h := publish_resolves_every_waiter stateTwoWaiters 7 r hr
  refine ⟨r, hr, h.1, ?_⟩
  have h2 := h.2.1
  simpa [effSubs, stateTwoWaiters] using h2

/-- C4 (spec-modelled truncate): truncate sets the new head to
min(head + count, tail), so the head never advances past the current tail
and, whenever the state is well formed (head ≤ tail), never decreases; the
tail is untouched, and afterwards pull at any offset below the new head
fails with the offset-below-head error. -/
theorem truncate_monotone (s : PubSubState Msg Id) (count : Nat)
    (hwf : effHead s ≤ effTail s) :
    effHead (truncate s count).1 = min (effHead s + count) (effTail s)
  ∧ effHead s ≤ effHead (truncate s count).1
  ∧ effHead (truncate s count).1 ≤ effTail (truncate s count).1
  ∧ effTail (truncate s count).1 = effTail s
  ∧ ∀ offset, offset < effHead (truncate s count).1 →
      pull (truncate s count).1 offset =
        PullOutcome.terminal (offsetBelowHeadMsg offset (effHead (truncate s count).1)) := by
  have hhead : effHead (truncate s count).1 = min (effHead s + count) (effTail s) := rfl
  have htail : effTail (truncate s count).1 = effTail s := rfl
  refine ⟨hhead, ?_, ?_, htail, fun offset hoff => ?_⟩
  · rw [hhead]
    omega
  · rw [hhead, htail]
    omega
  · exact pull_terminal_of_lt_head (truncate s count).1 offset hoff

/-- Concrete topic for the C4 witness: head 1, tail 3. -/
def stateHeadOne : PubSubState Nat Nat :=
  { messagesMetadata := some { head := 1, tail := 3 },
    store := fun _ => none,
    subscription := none }

/-- Witness for C4: head 1, tail 3, truncate by 5 caps the new head at the
tail 3; pull at offset 2 then fails with the offset-below-head error. -/
theorem truncate_monotone_witness :
    effHead (truncate stateHeadOne 5).1 = 3
  ∧ pull (truncate stateHeadOne 5).1 2 =
      PullOutcome.terminal "Offset 2 is lower than the head 3" := by
  have h := truncate_monotone stateHeadOne 5 (by decide)
  refine ⟨by rw [h.1]; decide, ?_⟩
  have h5 := h.2.2.2.2 2 (by rw [h.1]; decide)
  rw [h5, h.1]
  decide

/-- C5: subscribe performs a three-way case split. Below the head it
rejects the token with the offset-below-head failure and registers nothing
(the state is returned unchanged). Otherwise below the tail it immediately
resolves the token with nextOffset = tail and the stored messages in
[offset, tail), given by f on the populated slots. Otherwise it appends the
waiter to the pending list, leaving every other field of the state
unchanged. -/
theorem subscribe_three_way (s : PubSubState Msg Id) (sub : Subscription Id) (f : Nat → Msg) :
    (sub.offset < effHead s →
      subscribe s sub = Except.ok
        (s, SubscribeEffect.rejected sub.id (offsetBelowHeadMsg sub.offset (effHead s))))
  ∧ (effHead s ≤ sub.offset → sub.offset < effTail s →
      (∀ i, sub.offset ≤ i → i < effTail s → s.store i = some (f i)) →
      subscribe s sub = Except.ok (s, SubscribeEffect.resolved sub.id
        { newOffset := effTail s,
          newMessages := (List.range' sub.offset (effTail s - sub.offset)).map f }))
  ∧ (effHead s ≤ sub.offset → effTail s ≤ sub.offset →
      subscribe s sub = Except.ok
        ({ messagesMetadata := s.messagesMetadata,
           store := s.store,
           subscription := some (effSubs s ++ [sub]) }, SubscribeEffect.registered)) := by
  refine ⟨fun h1 => ?_, fun h1 h2 hf => ?_, fun h1 h2 => ?_⟩
  · unfold subscribe
    rw [if_pos h1]
  · unfold subscribe
    rw [if_neg (by omega), if_pos h2,
      loadMessagesInRange_eq_map s.store f sub.offset (effTail s) hf]
  · unfold subscribe
    rw [if_neg (by omega), if_neg (by omega)]
    rfl

/-- Concrete topic for the C5 witness: head 2, tail 4, slot i holds 100 + i,
empty pending list. -/
def stateMidTopic : PubSubState Nat Nat :=
  { messagesMetadata := some { head := 2, tail := 4 },
    store := fun i => some (100 + i),
    subscription := some [] }

/-- Witness for C5 exercising all three branches on a concrete state: a
topic with head 2 and tail 4 whose slots hold 100 + i rejects offset 1,
resolves offset 3 with message 103 and nextOffset 4, and registers a waiter
at offset 7 by appending it to the pending list. -/
theorem subscribe_three_way_witness :
    subscribe stateMidTopic { offset := 1, id := 21 } =
      Except.ok (stateMidTopic,
        SubscribeEffect.rejected 21 "Offset 1 is lower than the head 2")
  ∧ subscribe stateMidTopic { offset := 3, id := 22 } =
      Except.ok (stateMidTopic,
        SubscribeEffect.resolved 22 { newOffset := 4, newMessages := [103] })
  ∧ ∃ s2, subscribe stateMidTopic { offset := 7, id := 23 } =
        Except.ok (s2, SubscribeEffect.registered)
      ∧ s2.subscription = some [{ offset := 7, id := 23 }] := by
  refine ⟨?_, ?_, ?_⟩
  · have h := (subscribe_three_way stateMidTopic { offset := 1, id := 21 }
      (fun i => 100 + i)).1 (by decide)
    simpa [offsetBelowHeadMsg] using h
  · have h := (subscribe_three_way stateMidTopic { offset := 3, id := 22 }
      (fun i => 100 + i)).2.1 (by decide) (by decide) (fun i _ _ => rfl)
    simpa using h
  · have h := (subscribe_three_way stateMidTopic { offset := 7, id := 23 }
      (fun i => 100 + i)).2.2 (by decide) (by decide)
    exact ⟨_, h, by simp [effSubs, stateMidTopic]⟩

/-! Helper lemmas for the operation machine. -/

theorem mapM_except_isOk {α β : Type} (g : α → Except String β) :
    ∀ l : List α, (∀ a ∈ l, ∃ b, g a = Except.ok b) → ∃ out, l.mapM g = Except.ok out
  | [], _ => ⟨[], rfl⟩
  | a :: l, h => by
    obtain ⟨b, hb⟩ := h a (by simp)
    obtain ⟨out, hout⟩ := mapM_except_isOk g l (fun x hx => h x (by simp [hx]))
    exact ⟨b :: out, by rw [List.mapM_cons, hb, hout]; rfl⟩

theorem publishStore_isSome (s : PubSubState Msg Id) (m : Msg)
    (h : ∀ i, i < effTail s → (s.store i).isSome) :
    ∀ i, i < effTail s + 1 → ((publishStore s m) i).isSome := by
  intro i hi
  unfold publishStore
  by_cases hc : i = effTail s
  · simp [hc]
  · rw [if_neg hc]
    exact h i (by omega)

theorem publish_ok_of_populated (s : PubSubState Msg Id) (m : Msg)
    (h : ∀ i, i < effTail s → (s.store i).isSome) :
    ∃ r, publish s m = Except.ok r := by
  have hall : ∀ w ∈ effSubs s,
      ∃ p, publishNotify (publishStore s m) (effTail s + 1) w = Except.ok p := by
    intro w _
    obtain ⟨out, hout⟩ := loadMessagesInRange_isOk (publishStore s m) w.offset (effTail s + 1)
      (publishStore_isSome s m h)
    refine ⟨(w.id, { newOffset := effTail s + 1, newMessages := out }), ?_⟩
    unfold publishNotify
    rw [hout]
    rfl
  obtain ⟨out, hout⟩ := mapM_except_isOk _ (effSubs s) hall
  refine ⟨{ state := publishState s m, resolved := out }, ?_⟩
  unfold publish
  rw [hout]
  rfl

theorem subscribe_ok_state (s : PubSubState Msg Id) (sub : Subscription Id)
    (s2 : PubSubState Msg Id) (eff : SubscribeEffect Msg Id)
    (h : subscribe s sub = Except.ok (s2, eff)) :
    s2.messagesMetadata = s.messagesMetadata ∧ s2.store = s.store := by
  unfold subscribe at h
  by_cases h1 : sub.offset < effHead s
  · rw [if_pos h1] at h
    have h2 : s = s2 := congrArg Prod.fst (Except.ok.inj h)
    rw [← h2]
    exact ⟨rfl, rfl⟩
  · rw [if_neg h1] at h
    by_cases h3 : sub.offset < effTail s
    · rw [if_pos h3] at h
      cases hl : loadMessagesInRange s.store sub.offset (effTail s) with
      | error e =>
        rw [hl] at h
        exact absurd h (by simp)
      | ok msgs =>
        rw [hl] at h
        have h2 : s = s2 := congrArg Prod.fst (Except.ok.inj h)
        rw [← h2]
        exact ⟨rfl, rfl⟩
    · rw [if_neg h3] at h
      have h2 : ({ s with subscription := some (effSubs s ++ [sub]) } : PubSubState Msg Id) = s2 :=
        congrArg Prod.fst (Except.ok.inj h)
      rw [← h2]
      exact ⟨rfl, rfl⟩

theorem step_preserves_inv (s : PubSubState Msg Nat) (op : Op Msg) (h : topicInv s) :
    topicInv (step s op) := by
  obtain ⟨hwf, hpop⟩ := h
  cases op with
  | publish m =>
    simp only [step]
    cases hp : publish s m with
    | error e => exact ⟨hwf, hpop⟩
    | ok r =>
      show topicInv r.state
      obtain ⟨-, hmeta, hstore, -⟩ := publish_ok_parts s m r hp
      have hh : effHead r.state = effHead s := by
        simp [effHead, effMeta, hmeta]
      have ht : effTail r.state = effTail s + 1 := by
        simp [effTail, effMeta, hmeta]
      refine ⟨by omega, fun i hi => ?_⟩
      rw [hstore]
      exact publishStore_isSome s m hpop i (by omega)
  | subscribe offset id =>
    simp only [step]
    cases hs : subscribe s { offset := offset, id := id } with
    | error e => exact ⟨hwf, hpop⟩
    | ok p =>
      show topicInv p.1
      obtain ⟨hmeta, hstore⟩ := subscribe_ok_state s _ p.1 p.2 (by rw [hs])
      have hh : effHead p.1 = effHead s := by
        simp [effHead, effMeta, hmeta]
      have ht : effTail p.1 = effTail s := by
        simp [effTail, effMeta, hmeta]
      refine ⟨by omega, fun i hi => ?_⟩
      rw [hstore]
      exact hpop i (by omega)
  | truncate count =>
    show topicInv (truncate s count).1
    have hh : effHead (truncate s count).1 = min (effHead s + count) (effTail s) := rfl
    have ht : effTail (truncate s count).1 = effTail s := rfl
    refine ⟨by omega, fun i hi => ?_⟩
    exact hpop i (by rw [ht] at hi; omega)
  | pull offset => exact ⟨hwf, hpop⟩

theorem step_tail_count (s : PubSubState Msg Nat) (op : Op Msg) (h : topicInv s) :
    effTail (step s op) = effTail s + countPublish [op] := by
  cases op with
  | publish m =>
    obtain ⟨r, hp⟩ := publish_ok_of_populated s m h.2
    simp only [step]
    rw [hp]
    show effTail r.state = effTail s + countPublish [Op.publish m]
    obtain ⟨-, hmeta, -, -⟩ := publish_ok_parts s m r hp
    simp [effTail, effMeta, hmeta, countPublish]
  | subscribe offset id =>
    simp only [step]
    cases hs : subscribe s { offset := offset, id := id } with
    | error e =>
      show effTail s = effTail s + countPublish [Op.subscribe offset id]
      simp [countPublish]
    | ok p =>
      show effTail p.1 = effTail s + countPublish [Op.subscribe offset id]
      obtain ⟨hmeta, -⟩ := subscribe_ok_state s _ p.1 p.2 (by rw [hs])
      simp [effTail, effMeta, hmeta, countPublish]
  | truncate count =>
    show effTail (truncate s count).1 = effTail s + countPublish [Op.truncate count]
    simp [countPublish]
    rfl
  | pull offset =>
    show effTail s = effTail s + countPublish [Op.pull offset]
    simp [countPublish]

theorem step_publish_head (s : PubSubState Msg Nat) (m : Msg) :
    effHead (step s (Op.publish m)) = effHead s := by
  simp only [step]
  cases hp : publish s m with
  | error e => rfl
  | ok r =>
    show effHead r.state = effHead s
    obtain ⟨-, hmeta, -, -⟩ := publish_ok_parts s m r hp
    simp [effHead, effMeta, hmeta]

theorem run_aux (ops : List (Op Msg)) :
    ∀ s : PubSubState Msg Nat, topicInv s →
      topicInv (ops.foldl step s) ∧ effTail (ops.foldl step s) = effTail s + countPublish ops
  | s, h => by
    induction ops generalizing s with
    | nil => exact ⟨h, by simp [countPublish]⟩
    | cons op ops ih =>
      have h1 := step_preserves_inv s op h
      have h2 := step_tail_count s op h
      obtain ⟨ha, hb⟩ := ih (step s op) h1
      refine ⟨by simpa using ha, ?_⟩
      rw [List.foldl_cons, hb, h2]
      cases op
      all_goals simp [countPublish]
      all_goals omega

theorem inv_initial : topicInv (initialState Msg Nat) := by
  refine ⟨Nat.le_refl 0, fun i hi => absurd hi ?_⟩
  simp [effTail, initialState, effMeta, defaultMetadata]

/-- C6: the invariant head ≤ tail holds for the state reached from the
initial (default) topic state by any sequence of operations (so in
particular in the initial state itself, with the empty sequence), the tail
always equals the count of publish operations performed, and appending one
more publish increases the tail by exactly 1 while leaving the head
unchanged. -/
theorem head_tail_invariant (ops : List (Op Msg)) (m : Msg) :
    effHead (run ops) ≤ effTail (run ops)
  ∧ effTail (run ops) = countPublish ops
  ∧ effTail (run (ops ++ [Op.publish m])) = effTail (run ops) + 1
  ∧ effHead (run (ops ++ [Op.publish m])) = effHead (run ops) := by
  obtain ⟨hinv, htail⟩ := run_aux ops (initialState Msg Nat) inv_initial
  have hstep : run (ops ++ [Op.publish m]) = step (run ops) (Op.publish m) := by
    simp [run, List.foldl_append]
  have ht0 : effTail (initialState Msg Nat) = 0 := rfl
  refine ⟨hinv.1, by rw [run]; omega, ?_, ?_⟩
  · rw [hstep, step_tail_count (run ops) (Op.publish m) hinv]
    simp [countPublish]
  · rw [hstep, step_publish_head]

/-! Helper lemmas for the live-edge behavior. -/

theorem subscribe_registered_eq (s : PubSubState Msg Id) (sub : Subscription Id)
    (h1 : ¬ sub.offset < effHead s) (h2 : ¬ sub.offset < effTail s) :
    subscribe s sub = Except.ok (registerWaiter s sub, SubscribeEffect.registered) := by
  unfold subscribe
  rw [if_neg h1, if_neg h2]

theorem publish_resolves_tail_waiter (s : PubSubState Msg Id) (w : Subscription Id) (m : Msg)
    (hw : w.offset = effTail s) (hsub : s.subscription = some [w]) :
    ∃ r, publish s m = Except.ok r
      ∧ r.resolved = [(w.id, { newOffset := effTail s + 1, newMessages := [m] })] := by
  have hload : loadMessagesInRange (publishStore s m) (effTail s) (effTail s + 1) =
      Except.ok [m] := by
    unfold loadMessagesInRange
    rw [if_neg (by omega)]
    have h1 : effTail s + 1 - effTail s = 1 := by omega
    rw [h1, List.range'_one]
    have h2 : readSlot (publishStore s m) (effTail s) = Except.ok m := by
      unfold readSlot publishStore
      rw [if_pos rfl]
    rw [List.mapM_cons, h2, List.mapM_nil]
    rfl
  have hg : publishNotify (publishStore s m) (effTail s + 1) w =
      Except.ok (w.id, { newOffset := effTail s + 1, newMessages := [m] }) := by
    unfold publishNotify
    rw [hw, hload]
    rfl
  have hm : (effSubs s).mapM (publishNotify (publishStore s m) (effTail s + 1)) =
      Except.ok [(w.id, { newOffset := effTail s + 1, newMessages := [m] })] := by
    have hs1 : effSubs s = [w] := by simp [effSubs, hsub]
    rw [hs1, List.mapM_cons, hg, List.mapM_nil]
    rfl
  refine ⟨{ state := publishState s m,
            resolved := [(w.id, { newOffset := effTail s + 1, newMessages := [m] })] }, ?_, rfl⟩
  unfold publish
  rw [hm]
  rfl

/-- C7 (spec-modelled unset-offset handling): a pull request without an
explicit offset resolves its offset to the current tail, so the first call
of a client loop started without an offset suspends at the live edge and
returns no previously published message; registering the resulting waiter
on a topic with no other pending waiter and publishing the next message
resolves it with exactly that one new message and nextOffset = tail + 1, so
previously published messages are never yielded. -/
theorem pull_unset_offset_starts_at_tail (s : PubSubState Msg Nat) (id : Nat) (m : Msg)
    (hwf : effHead s ≤ effTail s) (hsub : s.subscription = none) :
    pullRequest s none = PullOutcome.awaitSubscribe (effTail s)
  ∧ ∃ s2, subscribe s { offset := effTail s, id := id } =
        Except.ok (s2, SubscribeEffect.registered)
      ∧ ∃ r, publish s2 m = Except.ok r
          ∧ r.resolved = [(id, { newOffset := effTail s + 1, newMessages := [m] })] := by
  constructor
  · show pull s (resolveOffset s none) = _
    have h0 : resolveOffset s none = effTail s := rfl
    rw [h0]
    unfold pull
    rw [if_neg (by omega), if_neg (by omega)]
  · refine ⟨registerWaiter s { offset := effTail s, id := id }, ?_, ?_⟩
    · exact subscribe_registered_eq s { offset := effTail s, id := id }
        (show ¬ effTail s < effHead s by omega) (show ¬ effTail s < effTail s by omega)
    · have hsub2 : (registerWaiter s { offset := effTail s, id := id }).subscription =
          some [{ offset := effTail s, id := id }] := by
        simp [registerWaiter, effSubs, hsub]
      obtain ⟨r, hr1, hr2⟩ := publish_resolves_tail_waiter
        (registerWaiter s { offset := effTail s, id := id })
        { offset := effTail s, id := id } m rfl hsub2
      exact ⟨r, hr1, hr2⟩

/-- Concrete topic for the C7 witness: head 1, tail 2, no pending waiter. -/
def stateLiveEdge : PubSubState Nat Nat :=
  { messagesMetadata := some { head := 1, tail := 2 },
    store := fun _ => none,
    subscription := none }

/-- Witness for C7: on the concrete topic with tail 2, a pull request with
no offset suspends at offset 2; registering the waiter and publishing 42
resolves it with only the new message and nextOffset 3. -/
theorem pull_unset_offset_starts_at_tail_witness :
    pullRequest stateLiveEdge none = PullOutcome.awaitSubscribe 2
  ∧ ∃ s2, subscribe stateLiveEdge { offset := 2, id := 5 } =
        Except.ok (s2, SubscribeEffect.registered)
      ∧ ∃ r, publish s2 (42 : Nat) = Except.ok r
          ∧ r.resolved = [(5, { newOffset := 3, newMessages := [42] })] :=
  pull_unset_offset_starts_at_tail stateLiveEdge 5 42 (by decide) rfl

/-! Helper lemmas for the client loop. -/

theorem pullLoop_cons_err (delay : Nat) (o : Option Nat) (isHttp : Bool) (status : Nat)
    (rest : List (Bool × PullCallResult Msg)) :
    pullLoop delay o ((false, PullCallResult.err isHttp status) :: rest) =
      if isHttp = true ∧ status = 408 then
        (LoopEvent.pullCall o :: LoopEvent.sleep delay ::
          LoopEvent.sleep delay :: (pullLoop delay o rest).1,
         (pullLoop delay o rest).2)
      else ([LoopEvent.pullCall o], LoopEnd.raised isHttp status) := rfl

theorem pullLoop_raised_not_timeout (delay : Nat) :
    ∀ (inputs : List (Bool × PullCallResult Msg)) (o : Option Nat) (b : Bool) (st : Nat),
      (pullLoop delay o inputs).2 = LoopEnd.raised b st → ¬ (b = true ∧ st = 408)
  | [], o, b, st, h => by simp [pullLoop] at h
  | (true, r) :: rest, o, b, st, h => by simp [pullLoop] at h
  | (false, PullCallResult.ok msgs next) :: rest, o, b, st, h => by
    rw [show (pullLoop delay o ((false, PullCallResult.ok msgs next) :: rest)).2 =
      (pullLoop delay (some next) rest).2 from rfl] at h
    exact pullLoop_raised_not_timeout delay rest (some next) b st h
  | (false, PullCallResult.err isHttp status) :: rest, o, b, st, h => by
    rw [pullLoop_cons_err] at h
    by_cases hc : isHttp = true ∧ status = 408
    · rw [if_pos hc] at h
      exact pullLoop_raised_not_timeout delay rest o b st h
    · rw [if_neg hc] at h
      have hb : isHttp = b ∧ status = st := by
        have h2 := LoopEnd.raised.inj h
        exact ⟨h2.1, h2.2⟩
      rw [← hb.1, ← hb.2]
      exact hc

/-- C8: one iteration of the client loop on an unaborted signal. A pull
failure that is a transport timeout (an HttpCallError with status 408)
produces the catch-branch sleep and the loop-bottom sleep and then
continues with the same offset; any other error ends the loop by raising
that error, with no further pull call; on success every returned message is
yielded, in order, before the continuation runs with offset advanced to the
returned nextOffset, and the loop sleeps once in between. The last conjunct
shows globally that a loop can only terminate by raising a non-timeout
error. -/
theorem pullLoop_retry_and_propagate (delay : Nat) (offset : Option Nat)
    (rest : List (Bool × PullCallResult Msg)) (isHttp : Bool) (status : Nat)
    (msgs : List Msg) (next : Nat) :
    (isHttp = true → status = 408 →
      pullLoop delay offset ((false, PullCallResult.err isHttp status) :: rest) =
        (LoopEvent.pullCall offset :: LoopEvent.sleep delay :: LoopEvent.sleep delay ::
          (pullLoop delay offset rest).1, (pullLoop delay offset rest).2))
  ∧ (¬ (isHttp = true ∧ status = 408) →
      pullLoop delay offset ((false, PullCallResult.err isHttp status) :: rest) =
        ([LoopEvent.pullCall offset], LoopEnd.raised isHttp status))
  ∧ pullLoop delay offset ((false, PullCallResult.ok msgs next) :: rest) =
      (LoopEvent.pullCall offset :: (msgs.map LoopEvent.yieldMsg ++
        (LoopEvent.sleep delay :: (pullLoop delay (some next) rest).1)),
       (pullLoop delay (some next) rest).2)
  ∧ (∀ (inputs : List (Bool × PullCallResult Msg)) (o : Option Nat) (b : Bool) (st : Nat),
      (pullLoop delay o inputs).2 = LoopEnd.raised b st → ¬ (b = true ∧ st = 408)) := by
  refine ⟨fun h1 h2 => ?_, fun hc => ?_, rfl, fun inputs o b st h =>
    pullLoop_raised_not_timeout delay inputs o b st h⟩
  · rw [pullLoop_cons_err, if_pos ⟨h1, h2⟩]
  · rw [pullLoop_cons_err, if_neg hc]

/-- Witness for C8 at delay 100: a 408 timeout retries at the same offset 7
after sleeping; a status-500 error raises; a success yields both messages
before the loop continues at offset 9. -/
theorem pullLoop_retry_and_propagate_witness :
    pullLoop 100 (some 7) [(false, PullCallResult.err true 408)] =
      (([LoopEvent.pullCall (some 7), LoopEvent.sleep 100, LoopEvent.sleep 100] :
        List (LoopEvent Nat)), LoopEnd.ranOut)
  ∧ pullLoop 100 (some 7) [(false, PullCallResult.err true 500)] =
      (([LoopEvent.pullCall (some 7)] : List (LoopEvent Nat)), LoopEnd.raised true 500)
  ∧ pullLoop 100 (some 7) [(false, PullCallResult.ok [3, 4] 9)] =
      ([LoopEvent.pullCall (some 7), LoopEvent.yieldMsg 3, LoopEvent.yieldMsg 4,
        LoopEvent.sleep 100], LoopEnd.ranOut) := by
  have h1 := (pullLoop_retry_and_propagate 100 (some 7) ([] : List (Bool × PullCallResult Nat))
    true 408 [] 0).1 rfl rfl
  have h2 := (pullLoop_retry_and_propagate 100 (some 7) ([] : List (Bool × PullCallResult Nat))
    true 500 [] 0).2.1 (by decide)
  have h3 := (pullLoop_retry_and_propagate 100 (some 7) ([] : List (Bool × PullCallResult Nat))
    true 408 ([3, 4] : List Nat) 9).2.2.1
  exact ⟨by rw [h1]; rfl, by rw [h2], by rw [h3]; rfl⟩

/-- C9: the stream view of a finished loop run emits the keep-alive chunk
first, before any message, then exactly one framed data chunk per yielded
message in the same order; it is closed when the loop was aborted and
surfaces a raised loop failure as a stream error. -/
theorem sse_framing (json : Msg → String) (loopOut : List (LoopEvent Msg) × LoopEnd) :
    (sse json loopOut).1 =
      "event: ping\n" :: (yieldsOf loopOut.1).map (fun m => "data: " ++ json m ++ "\n\n")
  ∧ (sse json loopOut).1.head? = some "event: ping\n"
  ∧ (∀ b st, loopOut.2 = LoopEnd.raised b st → (sse json loopOut).2 = StreamEnd.errored b st)
  ∧ (loopOut.2 = LoopEnd.aborted → (sse json loopOut).2 = StreamEnd.closed) := by
  refine ⟨rfl, rfl, fun b st h => ?_, fun h => ?_⟩
  · unfold sse
    rw [h]
  · unfold sse
    rw [h]

/-- Witness for C9 on a concrete loop run that yielded messages 3 and 4 and
then raised a status-500 error: the chunks are the ping line followed by one
data frame per message, and the stream ends errored. -/
theorem sse_framing_witness :
    sse (fun m : Nat => toString m)
      ([LoopEvent.pullCall none, LoopEvent.yieldMsg 3, LoopEvent.sleep 100,
        LoopEvent.yieldMsg 4], LoopEnd.raised false 500) =
      (["event: ping\n", "data: 3\n\n", "data: 4\n\n"], StreamEnd.errored false 500) := by
  have h := sse_framing (fun m : Nat => toString m)
    ([LoopEvent.pullCall none, LoopEvent.yieldMsg 3, LoopEvent.sleep 100,
      LoopEvent.yieldMsg 4], LoopEnd.raised false 500)
  have h3 := h.2.2.1 false 500 rfl
  have h1 := h.1
  rw [Prod.ext_iff]
  refine ⟨by rw [h1]; rfl, by rw [h3]⟩

/-- Duration with both milliseconds 500 and seconds 1 defined, the example
of the priority order. -/
def durMsAndSeconds : Duration :=
  { milliseconds := some 500, seconds := some 1, minutes := none,
    hours := none, days := none }

/-- Duration with only seconds 2 defined. -/
def durSecondsOnly : Duration :=
  { milliseconds := none, seconds := some 2, minutes := none,
    hours := none, days := none }

/-- Duration with no unit field defined. -/
def durEmpty : Duration :=
  { milliseconds := none, seconds := none, minutes := none,
    hours := none, days := none }

/-- C10: durationToMs takes the first defined field in the fixed priority
order milliseconds, seconds, minutes, hours, days, converted to
milliseconds; in particular a duration with both seconds 1 and milliseconds
500 yields 500, not 1000, and a duration with none of the fields defined
fails with an error. -/
theorem durationToMs_priority (d : Duration) :
    (∀ ms, d.milliseconds = some ms → durationToMs d = Except.ok ms)
  ∧ (d.milliseconds = none → ∀ s, d.seconds = some s →
      durationToMs d = Except.ok (s * 1000))
  ∧ (d.milliseconds = none → d.seconds = none → ∀ mn, d.minutes = some mn →
      durationToMs d = Except.ok (mn * 60 * 1000))
  ∧ (d.milliseconds = none → d.seconds = none → d.minutes = none →
      ∀ hr, d.hours = some hr → durationToMs d = Except.ok (hr * 60 * 60 * 1000))
  ∧ (d.milliseconds = none → d.seconds = none → d.minutes = none → d.hours = none →
      ∀ dy, d.days = some dy → durationToMs d = Except.ok (dy * 24 * 60 * 60 * 1000))
  ∧ (d.milliseconds = none → d.seconds = none → d.minutes = none → d.hours = none →
      d.days = none → ∃ e, durationToMs d = Except.error e)
  ∧ durationToMs durMsAndSeconds = Except.ok 500 := by
  refine ⟨fun ms h1 => ?_, fun h1 s h2 => ?_, fun h1 h2 mn h3 => ?_,
    fun h1 h2 h3 hr h4 => ?_, fun h1 h2 h3 h4 dy h5 => ?_, fun h1 h2 h3 h4 h5 => ?_, rfl⟩
  · unfold durationToMs
    rw [h1]
  · unfold durationToMs
    rw [h1, h2]
  · unfold durationToMs
    rw [h1, h2, h3]
  · unfold durationToMs
    rw [h1, h2, h3, h4]
  · unfold durationToMs
    rw [h1, h2, h3, h4, h5]
  · exact ⟨"Unsupported duration unit", by unfold durationToMs; rw [h1, h2, h3, h4, h5]⟩

/-- Witness for C10: applying the priority cases at concrete durations, a
seconds-only duration converts to 2000 ms and an empty duration fails. -/
theorem durationToMs_priority_witness :
    durationToMs durSecondsOnly = Except.ok 2000
  ∧ ∃ e, durationToMs durEmpty = Except.error e := by
  constructor
  · exact (durationToMs_priority durSecondsOnly).2.1 rfl 2 rfl
  · exact (durationToMs_priority durEmpty).2.2.2.2.2.1 rfl rfl rfl rfl rfl

end Pubsub
